import Mathlib

/-!
# HTU21D humidity sensor driver (`htu21d/htu21d.go`)

A shallow embedding of the driver.  The Go code talks to the outside through
three effects: the driver's mutex, transactions on an I2C bus and
`time.Sleep`.  The embedding threads an explicit state made of the state of
the outside world and the list of effects performed so far, so that both the
results and the order of the externally visible actions can be stated.
-/

namespace htu21d

/-! ## Bytes, options and constants -/

/-- A Go `byte` (`uint8`): a natural number below 256. -/
abbrev Byte := Fin 256

/-- The `Opts` struct: operating mode and the user-register byte. -/
structure Opts where
  HoldMaster : Bool
  Config : Byte
deriving DecidableEq, Repr

/-- Constant `HoldMaster = 0xE5`: the hold-master humidity command. -/
def HoldMaster : Byte := 0xE5

/-- Constant `NoHoldMaster = 0xF5`: the no-hold-master humidity command. -/
def NoHoldMaster : Byte := 0xF5

/-- Constant `SenseBits = byte(0b00000011)`: mask of the two status bits. -/
def SenseBits : Byte := 0b00000011

/-- One `time.Millisecond`, in nanoseconds (the unit of `time.Duration`). -/
def Millisecond : Nat := 1000000

/-- Constant `ReadDelay = time.Millisecond * 100`. -/
def ReadDelay : Nat := Millisecond * 100

/-- Constant `StatusOKTemperature = 1`. -/
def StatusOKTemperature : Nat := 1

/-- Constant `StatusOKHumidity = 2`. -/
def StatusOKHumidity : Nat := 2

/-! ## The output record (`physic.Env`) -/

/-- Modelled from the spec: the constant `physic.PercentRH` of the external
package `periph.io/x/conn/v3/physic`, the number of fixed-point units
(`physic.RelativeHumidity`, an `int32`) in one percent of relative humidity:
"percent x 100000". -/
def PercentRH : Int := 100000

/-- The record `physic.Env` of the external package: three fixed-point
quantities.  The driver is handed a pointer to one; the embedding passes the
record in and returns it. -/
structure Env where
  Temperature : Int
  Pressure : Int
  Humidity : Int
deriving DecidableEq, Repr

/-! ## Go errors -/

/-- The error values the driver can return.  `transport t` is an error `t`
produced by the bus, `errorString s` is what `errors.New(s)` and a
`fmt.Errorf` without `%w` build, and `joinError es` is the value built by
`errors.Join` around the non-nil errors `es`. -/
inductive GoError (ε : Type) where
  | transport (t : ε)
  | errorString (s : String)
  | joinError (errs : List (GoError ε))

/-- Function `errors.New`. -/
def New {ε : Type} (text : String) : GoError ε := GoError.errorString text

/-- Function `errors.Join`: drops the nil arguments, returns nil when none is
left and otherwise an error that wraps the remaining ones in order. -/
def Join {ε : Type} (errs : List (Option (GoError ε))) : Option (GoError ε) :=
  match errs.filterMap id with
  | [] => none
  | es => some (GoError.joinError es)

/-- Method `Unwrap() []error` of the joined error; the other errors of the
driver wrap nothing. -/
def GoError.Unwrap {ε : Type} : GoError ε → List (GoError ε)
  | GoError.joinError errs => errs
  | _ => []

mutual
/-- Method `Error() string`: the text of an error, given the text of the
errors of the bus.  A joined error prints the texts of the errors it wraps,
one per line. -/
def GoError.Error {ε : Type} (text : ε → String) : GoError ε → String
  | GoError.transport t => text t
  | GoError.errorString s => s
  | GoError.joinError errs => errorLines text errs
/-- The texts of a list of errors separated by newlines. -/
def errorLines {ε : Type} (text : ε → String) : List (GoError ε) → String
  | [] => ""
  | [e] => e.Error text
  | e :: es => e.Error text ++ "\n" ++ errorLines text es
end

/-- The call `fmt.Errorf(pre ++ "%v" ++ post, v)` for a `byte` argument: the
verb `%v` prints the byte in decimal. -/
def Errorf {ε : Type} (pre : String) (v : Nat) (post : String) : GoError ε :=
  GoError.errorString (pre ++ toString v ++ post)

/-! ## The outside world: bus, clock and the trace of effects -/

/-- The effects of the driver, in the order they happen.  `tx b a w n` is the
transaction `Tx(w, r)` on bus `b` with device address `a` where `r` is a read
buffer of `n` bytes (`n = 0` for a nil buffer, `w = []` for a nil write
slice); `sleep ns` is a `time.Sleep` of `ns` nanoseconds. -/
inductive Event (β : Type) where
  | lock
  | unlock
  | tx (bus : β) (addr : Nat) (w : List Byte) (rlen : Nat)
  | sleep (ns : Nat)
deriving DecidableEq, Repr

/-- The behaviour of everything outside the driver.  `Tx` is the method
`i2c.Bus.Tx(addr, w, r)`: from the state of the world, the bus handle, the
address, the bytes written and the length of the read buffer it gives the
next state, the bytes the device delivered and the error, if any.  `Sleep`
lets time pass. -/
structure Machine (σ β ε : Type) where
  Tx : σ → β → Nat → List Byte → Nat → σ × List Byte × Option ε
  Sleep : σ → Nat → σ

/-- The state threaded through the driver: the world and the effects so far
(oldest first). -/
structure State (σ β : Type) where
  world : σ
  trace : List (Event β)

/-- Appends one effect to the trace. -/
def State.emit {σ β : Type} (st : State σ β) (ev : Event β) : State σ β :=
  { st with trace := st.trace ++ [ev] }

/-- Whether an effect is visible outside the process: bus transactions and
delays are, taking and releasing the driver's own mutex are not. -/
def Event.isExternal {β : Type} : Event β → Bool
  | Event.lock => false
  | Event.unlock => false
  | Event.tx _ _ _ _ => true
  | Event.sleep _ => true

/-- Whether an effect is a bus transaction. -/
def Event.isTx {β : Type} : Event β → Bool
  | Event.tx _ _ _ _ => true
  | _ => false

/-- The externally visible actions of a trace. -/
def visible {β : Type} (tr : List (Event β)) : List (Event β) :=
  tr.filter Event.isExternal

/-- The bus transactions of a trace. -/
def busTxs {β : Type} (tr : List (Event β)) : List (Event β) :=
  tr.filter Event.isTx

/-- Contents of a read buffer `buf` after the device delivered `data` into
it: a Go slice keeps its length, the bytes delivered overwrite it from the
front. -/
def fillBuf (buf data : List Byte) : List Byte :=
  data.take buf.length ++ buf.drop data.length

/-- Function `time.Sleep`. -/
def timeSleep {σ β ε : Type} (m : Machine σ β ε) (st : State σ β) (ns : Nat) : State σ β :=
  { world := m.Sleep st.world ns, trace := st.trace ++ [Event.sleep ns] }

/-! ## The driver -/

/-- The struct `i2c.Dev` of the external package: a bus handle and the
address of one device on it. -/
structure I2CDev (β : Type) where
  Bus : β
  Addr : Nat
deriving DecidableEq, Repr

/-- Method `(*i2c.Dev).Tx(w, r)` of the external package: one call of
`Bus.Tx(Addr, w, r)`.  Returns the next state, the read buffer after the call
and the error. -/
def I2CDev.Tx {σ β ε : Type} (m : Machine σ β ε) (c : I2CDev β) (st : State σ β)
    (w r : List Byte) : State σ β × List Byte × Option ε :=
  let res := m.Tx st.world c.Bus c.Addr w r.length
  ({ world := res.1, trace := st.trace ++ [Event.tx c.Bus c.Addr w r.length] },
    fillBuf r res.2.1, res.2.2)

/-- The struct `Dev`.  The mutex `mu` has no field here: taking and releasing
it are the effects `lock` and `unlock`. -/
structure Dev (β : Type) where
  d : I2CDev β
  opts : Opts
  Name : String
deriving DecidableEq, Repr

/-- How a call ends: it returns `a`, or the goroutine stops on the run-time
error of dereferencing a nil pointer. -/
inductive Exec (α : Type) where
  | returned (a : α)
  | nilDereference

/-- Method `(*Dev).makeDev`: copies the options record the pointer `opts`
refers to into the driver and returns a nil error.  `opts = none` is the nil
pointer, which `*opts` dereferences. -/
def Dev.makeDev {β ε : Type} (d : Dev β) (opts : Option Opts) :
    Exec (Dev β × Option (GoError ε)) :=
  match opts with
  | none => Exec.nilDereference
  | some o => Exec.returned ({ d with opts := o }, none)

/-- Function `NewI2C`: builds the driver around the `i2c.Dev` for bus `b` and
address `addr` (the other fields zero), then calls `makeDev`.  Returns the
driver pointer (`none` for nil), the error and the state. -/
def NewI2C {σ β ε : Type} (b : β) (addr : Nat) (opts : Option Opts) (st : State σ β) :
    Exec ((Option (Dev β) × Option (GoError ε)) × State σ β) :=
  let d : Dev β := { d := { Bus := b, Addr := addr }, opts := { HoldMaster := false, Config := 0 },
                     Name := "" }
  match (d.makeDev opts : Exec (Dev β × Option (GoError ε))) with
  | Exec.nilDereference => Exec.nilDereference
  | Exec.returned (_, some err) => Exec.returned ((none, some err), st)
  | Exec.returned (d1, none) => Exec.returned ((some d1, none), st)

/-- What a method of the driver leaves behind when it returns: the state, the
driver, the output record and the error (`none` for nil). -/
structure Outcome (σ β ε : Type) where
  st : State σ β
  dev : Dev β
  env : Env
  err : Option (GoError ε)

/-- A `return err` of a method that deferred `d.mu.Unlock()`: the mutex is
released on the way out. -/
def ret {σ β ε : Type} (st : State σ β) (d : Dev β) (e : Env) (err : Option (GoError ε)) :
    Outcome σ β ε :=
  { st := st.emit Event.unlock, dev := d, env := e, err := err }

/-- Go's unary `^` on a `byte`: every bit flipped. -/
def bitNot (b : Byte) : Byte := b ^^^ 255

/-- The expression `int32(msb)<<8 | int32(lsb)` after the status bits of
`lsb` were cleared with `lsb & ^SenseBits`.  The value is below `2^16`, so
the `int32` arithmetic does not wrap. -/
def hRaw (msb lsb : Byte) : Nat :=
  (msb.val <<< 8) ||| (lsb &&& bitNot SenseBits).val

/-- The conversion of a `float64` to an integer type: the fraction is
discarded (truncation toward zero). -/
def truncToInt (q : ℚ) : Int := Int.tdiv q.num (q.den : Int)

/-- The `float64` computation of lines 97 to 100 on a raw value `r`:
`rhTemp := float64(r) * (125.0 / 65536.0)`, `rh := rhTemp - 6.0`, and
`RelativeHumidity(rh * float64(PercentRH))`.  Each value is an integer
multiple of `2^-16` with a numerator far below `2^53` (see
`float64_exact`), so it is a `float64` and no operation rounds: the
computation is carried out in exact rationals. -/
def humidityOfRaw (r : Nat) : Int :=
  let rhTemp : ℚ := (r : ℚ) * (125 / 65536)
  let rh : ℚ := rhTemp - 6
  truncToInt (rh * (PercentRH : ℚ))

/-- Lines 83 to 102 of `SenseHumidity`: decode the read buffer, check the
status bits, convert and store. -/
def decode {σ β ε : Type} (st : State σ β) (d : Dev β) (e : Env) (read : List Byte)
    (err : Option (GoError ε)) : Outcome σ β ε :=
  let msb := read.getD 0 0
  let lsb := read.getD 1 0
  -- read status bits
  let status := lsb &&& SenseBits
  if status.val ≠ StatusOKHumidity then
    ret st d e (some (Errorf "Status was not correct [" status.val "]"))
  else
    ret st d { e with Humidity := humidityOfRaw (hRaw msb lsb) } err

/-- Method `(*Dev).SenseHumidity`. -/
def Dev.SenseHumidity {σ β ε : Type} (m : Machine σ β ε) (d : Dev β) (e : Env)
    (st : State σ β) : Outcome σ β ε :=
  let st := st.emit Event.lock
  let read : List Byte := List.replicate 3 0
  if d.opts.HoldMaster then
    -- Hold master
    let command := [HoldMaster]
    let r1 := d.d.Tx m st command []
    match r1.2.2 with
    | some t => ret r1.1 d e (Join [some (New "Failed to send command"), some (GoError.transport t)])
    | none =>
      let r2 := d.d.Tx m r1.1 [] read
      match r2.2.2 with
      | some t =>
        ret r2.1 d e (Join [some (New "Failed to read response"), some (GoError.transport t)])
      | none => decode r2.1 d e r2.2.1 none
  else
    -- No hold master
    let command := [NoHoldMaster]
    let r1 := d.d.Tx m st command []
    match r1.2.2 with
    | some t => ret r1.1 d e (Join [some (New "Failed to send command"), some (GoError.transport t)])
    | none =>
      -- Give time for device to complete measurement
      let st2 := timeSleep m r1.1 (Millisecond * 100)
      let r2 := d.d.Tx m st2 [] read
      match r2.2.2 with
      | some t =>
        ret r2.1 d e (Join [some (New "Failed to read response"), some (GoError.transport t)])
      | none => decode r2.1 d e r2.2.1 none

/-- Method `(*Dev).SenseTemperature`. -/
def Dev.SenseTemperature {σ β ε : Type} (d : Dev β) (e : Env) (st : State σ β) :
    Outcome σ β ε :=
  let st := st.emit Event.lock
  ret st d e (some (New "Not implemented"))

/-- Method `(*Dev).SetOptions`.  It takes no output record; the same
`Outcome` is used with the record of the caller passed through. -/
def Dev.SetOptions {σ β ε : Type} (d : Dev β) (e : Env) (st : State σ β) :
    Outcome σ β ε :=
  let st := st.emit Event.lock
  ret st d e (some (New "Not implemented"))

/-! ## A scripted world for concrete runs -/

/-- A world that answers the transactions from a script: each entry is the
bytes delivered and the error of one transaction; when the script is used up
every transaction succeeds and delivers nothing.  Time passing changes
nothing. -/
def scripted : Machine (List (List Byte × Option String)) Unit String where
  Tx := fun s _ _ _ _ =>
    match s with
    | [] => ([], [], none)
    | (data, err) :: rest => (rest, data, err)
  Sleep := fun s _ => s

/-- A driver on address `0x40` in hold-master mode. -/
def holdDev : Dev Unit :=
  { d := { Bus := (), Addr := 0x40 }, opts := { HoldMaster := true, Config := 0 }, Name := "" }

/-- A driver on address `0x40` in no-hold-master mode. -/
def noHoldDev : Dev Unit :=
  { d := { Bus := (), Addr := 0x40 }, opts := { HoldMaster := false, Config := 0 }, Name := "" }

/-- An output record with sentinel values. -/
def sentinelEnv : Env := { Temperature := 11, Pressure := 22, Humidity := 33 }

/-- The start of a run on the scripted world. -/
def start (script : List (List Byte × Option String)) :
    State (List (List Byte × Option String)) Unit :=
  { world := script, trace := [] }

/-! ## Vocabulary of the statements -/

/-- The effects of a call up to and including the read transaction. -/
def effectsToRead {β : Type} (d : Dev β) : List (Event β) :=
  if d.opts.HoldMaster then
    [Event.lock, Event.tx d.d.Bus d.d.Addr [0xE5] 0, Event.tx d.d.Bus d.d.Addr [] 3]
  else
    [Event.lock, Event.tx d.d.Bus d.d.Addr [0xF5] 0, Event.sleep 100000000,
      Event.tx d.d.Bus d.d.Addr [] 3]

/-! ## Arithmetic of the conversion -/

/-- The finite values of the type `float64`: an integer of magnitude below
`2^53` times a power of two with exponent from `-1074` to `971`.  An
operation of IEEE 754 arithmetic whose exact result is such a value returns
it unchanged. -/
def IsFloat64 (q : ℚ) : Prop :=
  ∃ k e : Int, |k| < 2 ^ 53 ∧ -1074 ≤ e ∧ e ≤ 971 ∧ q = (k : ℚ) * (2 : ℚ) ^ e

set_option maxRecDepth 100000 in
theorem clear_val : ∀ l : Byte, (l &&& bitNot SenseBits).val = l.val - l.val % 4 := by decide

set_option maxRecDepth 100000 in
theorem status_val : ∀ l : Byte, (l &&& SenseBits).val = l.val % 4 := by decide

set_option maxRecDepth 100000 in
theorem and_3_val : ∀ l : Byte, l.val &&& 0b11 = l.val % 4 := by decide

set_option maxRecDepth 100000 in
theorem and_252_val : ∀ l : Byte, l.val &&& 0b11111100 = l.val - l.val % 4 := by decide

theorem hRaw_eq (msb lsb : Byte) : hRaw msb lsb = msb.val * 256 + (lsb.val - lsb.val % 4) := by
  unfold hRaw
  rw [clear_val, Nat.shiftLeft_eq]
  have h : lsb.val - lsb.val % 4 < 2 ^ 8 := by have := lsb.isLt; omega
  have := Nat.mul_add_lt_is_or h msb.val
  rw [Nat.mul_comm] at this
  simpa using this.symm

theorem hRaw_bits (msb lsb : Byte) :
    hRaw msb lsb = (msb.val <<< 8) ||| (lsb.val &&& 0b11111100) := by
  unfold hRaw
  rw [clear_val, and_252_val]

theorem truncToInt_of_nonneg {q : ℚ} (h : 0 ≤ q) : truncToInt q = ⌊q⌋ := by
  unfold truncToInt
  rw [Rat.floor_def, Int.tdiv_eq_ediv (Rat.num_nonneg.mpr h) (Int.ofNat_nonneg _)]

theorem truncToInt_neg (q : ℚ) : truncToInt (-q) = - truncToInt q := by
  unfold truncToInt
  simp

/-- The conversion discards the fraction: it is the floor of a value that is
not negative and the ceiling of a negative one. -/
theorem truncToInt_floor_ceil (q : ℚ) : truncToInt q = if 0 ≤ q then ⌊q⌋ else ⌈q⌉ := by
  split
  · next h => exact truncToInt_of_nonneg h
  · next h =>
    have h2 : (0 : ℚ) ≤ -q := by linarith [not_le.mp h]
    have := truncToInt_of_nonneg h2
    rw [truncToInt_neg, Int.floor_neg] at this
    exact neg_injective this

theorem truncToInt_div (a : Int) (d : Nat) :
    truncToInt ((a : ℚ) / (d : ℚ)) = Int.tdiv a (d : Int) := by
  rcases le_or_lt 0 a with h | h
  · have hq : (0 : ℚ) ≤ (a : ℚ) / (d : ℚ) := by positivity
    rw [truncToInt_of_nonneg hq, Rat.floor_intCast_div_natCast,
      Int.tdiv_eq_ediv h (Int.ofNat_nonneg _)]
  · have hq : (0 : ℚ) ≤ ((-a : Int) : ℚ) / (d : ℚ) := by
      have : (0 : ℚ) ≤ ((-a : Int) : ℚ) := by exact_mod_cast (by omega : (0 : Int) ≤ -a)
      positivity
    have e : (a : ℚ) / (d : ℚ) = -(((-a : Int) : ℚ) / (d : ℚ)) := by push_cast; ring
    rw [e, truncToInt_neg, truncToInt_of_nonneg hq, Rat.floor_intCast_div_natCast,
      ← Int.tdiv_eq_ediv (by omega) (Int.ofNat_nonneg _), Int.neg_tdiv, neg_neg]

/-- The stored value in integer arithmetic. -/
theorem humidityOfRaw_eq (r : Nat) :
    humidityOfRaw r = Int.tdiv (((r : Int) * 125 - 393216) * 100000) 65536 := by
  have e : ((r : ℚ) * (125 / 65536) - 6) * ((PercentRH : Int) : ℚ)
      = ((((r : Int) * 125 - 393216) * 100000 : Int) : ℚ) / ((65536 : Nat) : ℚ) := by
    simp only [PercentRH]; push_cast; ring
  show truncToInt (((r : ℚ) * (125 / 65536) - 6) * ((PercentRH : Int) : ℚ)) = _
  rw [e, truncToInt_div]
  rfl

theorem humidityOfRaw_bounds (r : Nat) (h : r ≤ 65532) :
    -600000 ≤ humidityOfRaw r ∧ humidityOfRaw r ≤ 11899237 := by
  rw [humidityOfRaw_eq]
  rcases le_or_lt 393216 ((r : Int) * 125) with h1 | h1
  · rw [Int.tdiv_eq_ediv (by omega) (by omega)]
    omega
  · have e : ((r : Int) * 125 - 393216) * 100000 = -((393216 - (r : Int) * 125) * 100000) := by
      ring
    rw [e, Int.neg_tdiv, Int.tdiv_eq_ediv (by omega) (by omega)]
    omega

/-- Every value of the `float64` computation on a 16-bit raw value is a
`float64`, so none of its operations rounds. -/
theorem float64_exact (r : Nat) (h : r < 65536) :
    IsFloat64 (r : ℚ) ∧ IsFloat64 (125 / 65536) ∧ IsFloat64 ((r : ℚ) * (125 / 65536)) ∧
    IsFloat64 6 ∧ IsFloat64 ((r : ℚ) * (125 / 65536) - 6) ∧ IsFloat64 ((PercentRH : Int) : ℚ) ∧
    IsFloat64 (((r : ℚ) * (125 / 65536) - 6) * ((PercentRH : Int) : ℚ)) := by
  have hr : ((r : Int)) < 65536 := by exact_mod_cast h
  have h0 : (0 : Int) ≤ (r : Int) := Int.ofNat_nonneg r
  refine ⟨⟨r, 0, ?_, by norm_num, by norm_num, by simp⟩,
    ⟨125, -16, by norm_num, by norm_num, by norm_num, by norm_num⟩,
    ⟨(r : Int) * 125, -16, ?_, by norm_num, by norm_num, ?_⟩,
    ⟨6, 0, by norm_num, by norm_num, by norm_num, by norm_num⟩,
    ⟨(r : Int) * 125 - 393216, -16, ?_, by norm_num, by norm_num, ?_⟩,
    ⟨100000, 0, by norm_num, by norm_num, by norm_num, by simp [PercentRH]⟩,
    ⟨((r : Int) * 125 - 393216) * 100000, -16, ?_, by norm_num, by norm_num, ?_⟩⟩
  · rw [abs_lt]; constructor <;> omega
  · rw [abs_lt]; constructor <;> omega
  · push_cast; norm_num; ring
  · rw [abs_lt]; constructor <;> omega
  · push_cast; norm_num; ring
  · rw [abs_lt]; constructor <;> omega
  · simp only [PercentRH]; push_cast; norm_num; ring

/-! ## The three ways a measurement runs -/

theorem run_write_failed {σ β ε : Type} (m : Machine σ β ε) (d : Dev β) (e : Env)
    (st : State σ β) (w1 : σ) (x : List Byte) (t : ε)
    (hw : m.Tx st.world d.d.Bus d.d.Addr [if d.opts.HoldMaster then 0xE5 else 0xF5] 0
      = (w1, x, some t)) :
    d.SenseHumidity m e st =
      ret { world := w1, trace := st.trace ++ [Event.lock,
              Event.tx d.d.Bus d.d.Addr [if d.opts.HoldMaster then 0xE5 else 0xF5] 0] } d e
        (some (GoError.joinError
          [GoError.errorString "Failed to send command", GoError.transport t])) := by
  cases hm : d.opts.HoldMaster <;>
    simp only [hm, if_true, if_false, Bool.false_eq_true] at hw ⊢ <;>
    simp [Dev.SenseHumidity, I2CDev.Tx, hm, HoldMaster, NoHoldMaster, hw, State.emit, Join, New]

theorem run_read_failed {σ β ε : Type} (m : Machine σ β ε) (d : Dev β) (e : Env)
    (st : State σ β) (w1 w2 : σ) (x y : List Byte) (t : ε)
    (hw : m.Tx st.world d.d.Bus d.d.Addr [if d.opts.HoldMaster then 0xE5 else 0xF5] 0
      = (w1, x, none))
    (hr : m.Tx (if d.opts.HoldMaster then w1 else m.Sleep w1 100000000) d.d.Bus d.d.Addr [] 3
      = (w2, y, some t)) :
    d.SenseHumidity m e st =
      ret { world := w2, trace := st.trace ++ effectsToRead d } d e
        (some (GoError.joinError
          [GoError.errorString "Failed to read response", GoError.transport t])) := by
  cases hm : d.opts.HoldMaster <;>
    simp only [hm, if_true, if_false, Bool.false_eq_true] at hw hr <;>
    simp [Dev.SenseHumidity, I2CDev.Tx, hm, HoldMaster, NoHoldMaster, hw, hr, State.emit, Join,
      New, timeSleep, Millisecond, effectsToRead]

theorem run_read_done {σ β ε : Type} (m : Machine σ β ε) (d : Dev β) (e : Env)
    (st : State σ β) (w1 w2 : σ) (x y : List Byte)
    (hw : m.Tx st.world d.d.Bus d.d.Addr [if d.opts.HoldMaster then 0xE5 else 0xF5] 0
      = (w1, x, none))
    (hr : m.Tx (if d.opts.HoldMaster then w1 else m.Sleep w1 100000000) d.d.Bus d.d.Addr [] 3
      = (w2, y, none)) :
    d.SenseHumidity m e st =
      decode { world := w2, trace := st.trace ++ effectsToRead d } d e
        (fillBuf [0, 0, 0] y) none := by
  cases hm : d.opts.HoldMaster <;>
    simp only [hm, if_true, if_false, Bool.false_eq_true] at hw hr <;>
    simp [Dev.SenseHumidity, I2CDev.Tx, hm, HoldMaster, NoHoldMaster, hw, hr, State.emit,
      timeSleep, Millisecond, effectsToRead]

theorem decode_accepts {σ β ε : Type} (st : State σ β) (d : Dev β) (e : Env)
    (b0 b1 b2 : Byte) (err : Option (GoError ε)) (hs : b1.val % 4 = 2) :
    decode st d e (fillBuf [0, 0, 0] [b0, b1, b2]) err =
      ret st d { e with Humidity := humidityOfRaw (hRaw b0 b1) } err := by
  have h : (b1 &&& SenseBits).val = StatusOKHumidity := by rw [status_val, hs]; rfl
  unfold decode
  simp only [fillBuf, List.length_cons, List.length_nil, List.take, List.drop, List.append_nil,
    List.getD_cons_zero, List.getD_cons_succ]
  rw [if_neg (not_not.mpr h)]

theorem decode_rejects {σ β ε : Type} (st : State σ β) (d : Dev β) (e : Env)
    (b0 b1 b2 : Byte) (err : Option (GoError ε)) (hs : b1.val % 4 ≠ 2) :
    decode st d e (fillBuf [0, 0, 0] [b0, b1, b2]) err =
      ret st d e (some (GoError.errorString
        ("Status was not correct [" ++ toString (b1.val % 4) ++ "]"))) := by
  have h : (b1 &&& SenseBits).val ≠ StatusOKHumidity := by rw [status_val]; exact hs
  unfold decode
  simp only [fillBuf, List.length_cons, List.length_nil, List.take, List.drop, List.append_nil,
    List.getD_cons_zero, List.getD_cons_succ]
  rw [if_pos h, status_val]
  rfl

theorem humidityOfRaw_floor_ceil (r : Nat) :
    humidityOfRaw r =
      if 0 ≤ ((r : ℚ) * 125 / 65536 - 6) * 100000 then ⌊((r : ℚ) * 125 / 65536 - 6) * 100000⌋
      else ⌈((r : ℚ) * 125 / 65536 - 6) * 100000⌉ := by
  have e1 : ((r : ℚ) * 125 / 65536 - 6) * 100000
      = ((r : ℚ) * (125 / 65536) - 6) * ((PercentRH : Int) : ℚ) := by
    simp only [PercentRH]; push_cast; ring
  rw [e1, ← truncToInt_floor_ceil]; rfl

/-! ## The measurement: success -/

/-- C1: in either operating mode, when the command write succeeds and the
read delivers the three bytes `b0, b1, b2` with `b1 & 0b11 = 2`,
`SenseHumidity` returns a nil error and stores in `Humidity` (and in no other
field) the value `(r * 125/65536 - 6) * 100000` truncated toward zero, where
`r = (b0 << 8) | (b1 & 0b11111100)` and the arithmetic is that of exact
rationals. -/
theorem SenseHumidity_converts {σ β ε : Type} (m : Machine σ β ε) (d : Dev β) (e : Env)
    (st : State σ β) (w1 w2 : σ) (x : List Byte) (b0 b1 b2 : Byte)
    (hw : m.Tx st.world d.d.Bus d.d.Addr [if d.opts.HoldMaster then 0xE5 else 0xF5] 0
      = (w1, x, none))
    (hr : m.Tx (if d.opts.HoldMaster then w1 else m.Sleep w1 100000000) d.d.Bus d.d.Addr [] 3
      = (w2, [b0, b1, b2], none))
    (hs : b1.val &&& 0b11 = 2) :
    (d.SenseHumidity m e st).err = none ∧
    ∃ r : Nat, ∃ rh : ℚ,
      r = (b0.val <<< 8) ||| (b1.val &&& 0b11111100) ∧
      rh = (r : ℚ) * 125 / 65536 - 6 ∧
      (d.SenseHumidity m e st).env =
        { e with Humidity := if 0 ≤ rh * 100000 then ⌊rh * 100000⌋ else ⌈rh * 100000⌉ } := by
  have hs4 : b1.val % 4 = 2 := by rw [← and_3_val]; exact hs
  rw [run_read_done m d e st w1 w2 x _ hw hr, decode_accepts _ _ _ _ _ _ _ hs4]
  refine ⟨rfl, hRaw b0 b1, (hRaw b0 b1 : ℚ) * 125 / 65536 - 6, hRaw_bits b0 b1, rfl, ?_⟩
  rw [← humidityOfRaw_floor_ceil]
  rfl

/-- C1 at the bytes `0x80, 0x02` in hold-master mode (56.5 percent) and at
the bytes `0x00, 0x02` in no-hold-master mode (-6 percent). -/
theorem SenseHumidity_converts_witness :
    ((0x02 : Byte).val &&& 0b11 = 2 ∧
      (holdDev.SenseHumidity scripted sentinelEnv
        (start [([], none), ([0x80, 0x02, 0x00], none)])).err = none ∧
      (holdDev.SenseHumidity scripted sentinelEnv
        (start [([], none), ([0x80, 0x02, 0x00], none)])).env
        = { sentinelEnv with Humidity := 5650000 }) ∧
    ((noHoldDev.SenseHumidity scripted sentinelEnv
        (start [([], none), ([0x00, 0x02, 0x00], none)])).err = none ∧
      (noHoldDev.SenseHumidity scripted sentinelEnv
        (start [([], none), ([0x00, 0x02, 0x00], none)])).env
        = { sentinelEnv with Humidity := -600000 }) := by
  obtain ⟨h1, r1, q1, hr1, hq1, he1⟩ := SenseHumidity_converts scripted holdDev sentinelEnv
    (start [([], none), ([0x80, 0x02, 0x00], none)]) [([0x80, 0x02, 0x00], none)] [] []
    0x80 0x02 0x00 rfl rfl (by decide)
  obtain ⟨h2, r2, q2, hr2, hq2, he2⟩ := SenseHumidity_converts scripted noHoldDev sentinelEnv
    (start [([], none), ([0x00, 0x02, 0x00], none)]) [([0x00, 0x02, 0x00], none)] [] []
    0x00 0x02 0x00 rfl rfl (by decide)
  have e1 : r1 = 32768 := by rw [hr1]; decide
  have e2 : r2 = 0 := by rw [hr2]; decide
  subst e1 e2
  have v1 : q1 * 100000 = ((5650000 : Int) : ℚ) := by rw [hq1]; norm_num
  have v2 : q2 * 100000 = ((-600000 : Int) : ℚ) := by rw [hq2]; norm_num
  rw [v1] at he1
  rw [v2] at he2
  refine ⟨⟨by decide, h1, ?_⟩, h2, ?_⟩
  · rw [he1, Int.floor_intCast, if_pos (by norm_num)]
  · rw [he2, Int.ceil_intCast, if_neg (by norm_num)]

/-! ## The measurement: failures -/

theorem decode_state {σ β ε : Type} (st : State σ β) (d : Dev β) (e : Env) (read : List Byte)
    (err : Option (GoError ε)) : (decode st d e read err).st = st.emit Event.unlock := by
  unfold decode
  dsimp only
  split <;> rfl

/-- C2: whatever the bus does, when `SenseHumidity` returns a non-nil error
the output record is the one it was given: no field was written. -/
theorem SenseHumidity_error_keeps_record {σ β ε : Type} (m : Machine σ β ε) (d : Dev β)
    (e : Env) (st : State σ β) (h : (d.SenseHumidity m e st).err ≠ none) :
    (d.SenseHumidity m e st).env = e := by
  revert h
  unfold Dev.SenseHumidity decode
  dsimp only
  split <;> split <;> (try split) <;> (try split) <;> simp [ret]

/-- C2 on three runs that fail: the write fails, the read fails, the status
bits are 1.  The sentinel record comes back unchanged. -/
theorem SenseHumidity_error_keeps_record_witness :
    ((holdDev.SenseHumidity scripted sentinelEnv (start [([], some "nack")])).err ≠ none ∧
      (holdDev.SenseHumidity scripted sentinelEnv (start [([], some "nack")])).env
        = sentinelEnv) ∧
    ((noHoldDev.SenseHumidity scripted sentinelEnv
        (start [([], none), ([0x12], some "timeout")])).err ≠ none ∧
      (noHoldDev.SenseHumidity scripted sentinelEnv
        (start [([], none), ([0x12], some "timeout")])).env = sentinelEnv) ∧
    ((holdDev.SenseHumidity scripted sentinelEnv
        (start [([], none), ([0x80, 0x01, 0x00], none)])).err ≠ none ∧
      (holdDev.SenseHumidity scripted sentinelEnv
        (start [([], none), ([0x80, 0x01, 0x00], none)])).env = sentinelEnv) :=
  ⟨⟨by simp [Dev.SenseHumidity, I2CDev.Tx, holdDev, scripted, start, State.emit, ret, Join],
    SenseHumidity_error_keeps_record scripted holdDev sentinelEnv (start [([], some "nack")])
      (by simp [Dev.SenseHumidity, I2CDev.Tx, holdDev, scripted, start, State.emit, ret, Join])⟩,
   ⟨by simp [Dev.SenseHumidity, I2CDev.Tx, noHoldDev, scripted, start, State.emit, ret, Join,
      timeSleep],
    SenseHumidity_error_keeps_record scripted noHoldDev sentinelEnv
      (start [([], none), ([0x12], some "timeout")])
      (by simp [Dev.SenseHumidity, I2CDev.Tx, noHoldDev, scripted, start, State.emit, ret, Join,
        timeSleep])⟩,
   ⟨Option.ne_none_iff_isSome.mpr rfl,
    SenseHumidity_error_keeps_record scripted holdDev sentinelEnv
      (start [([], none), ([0x80, 0x01, 0x00], none)]) (Option.ne_none_iff_isSome.mpr rfl)⟩⟩

/-- The text of the status error determines the status value it reports. -/
theorem status_text_injective (u v : Nat) (hu : u < 4) (hv : v < 4)
    (h : "Status was not correct [" ++ toString u ++ "]"
      = "Status was not correct [" ++ toString v ++ "]") : u = v := by
  interval_cases u <;> interval_cases v <;> first | rfl | (exact absurd h (by decide))

/-- C3: in either mode, when the write and the read succeed and the status
bits `b1 & 0b11` of the response are not 2, `SenseHumidity` returns the
status error, whose text carries the observed status value (and no other
value below 4 gives that error), leaves the record alone, and its bus
transactions are the one write and the one read: nothing is retried. -/
theorem SenseHumidity_rejects_status {σ β ε : Type} (m : Machine σ β ε) (d : Dev β) (e : Env)
    (st : State σ β) (w1 w2 : σ) (x : List Byte) (b0 b1 b2 : Byte)
    (hw : m.Tx st.world d.d.Bus d.d.Addr [if d.opts.HoldMaster then 0xE5 else 0xF5] 0
      = (w1, x, none))
    (hr : m.Tx (if d.opts.HoldMaster then w1 else m.Sleep w1 100000000) d.d.Bus d.d.Addr [] 3
      = (w2, [b0, b1, b2], none))
    (hs : b1.val &&& 0b11 ≠ 2) :
    (d.SenseHumidity m e st).err = some (GoError.errorString
        ("Status was not correct [" ++ toString (b1.val &&& 0b11) ++ "]")) ∧
    (∀ v : Nat, v < 4 →
      (d.SenseHumidity m e st).err = some (GoError.errorString
        ("Status was not correct [" ++ toString v ++ "]")) → v = b1.val &&& 0b11) ∧
    (d.SenseHumidity m e st).env = e ∧
    (d.SenseHumidity m e st).st.world = w2 ∧
    busTxs ((d.SenseHumidity m e st).st.trace.drop st.trace.length) =
      [Event.tx d.d.Bus d.d.Addr [if d.opts.HoldMaster then 0xE5 else 0xF5] 0,
        Event.tx d.d.Bus d.d.Addr [] 3] := by
  have hs4 : b1.val % 4 ≠ 2 := by rw [← and_3_val]; exact hs
  have hlt : b1.val % 4 < 4 := Nat.mod_lt _ (by decide)
  rw [run_read_done m d e st w1 w2 x _ hw hr, decode_rejects _ _ _ _ _ _ _ hs4, and_3_val]
  refine ⟨rfl, ?_, rfl, rfl, ?_⟩
  · intro v hv h
    simp only [ret, Option.some.injEq, GoError.errorString.injEq] at h
    exact (status_text_injective _ _ hlt hv h).symm
  · cases hm : d.opts.HoldMaster <;>
      simp [ret, State.emit, effectsToRead, hm, busTxs, Event.isTx]

/-- C3 at the response `0x80, 0x01, 0x00` (status 1, temperature ready) in
no-hold-master mode. -/
theorem SenseHumidity_rejects_status_witness :
    (0x01 : Byte).val &&& 0b11 ≠ 2 ∧
    (noHoldDev.SenseHumidity scripted sentinelEnv
        (start [([], none), ([0x80, 0x01, 0x00], none)])).err
      = some (GoError.errorString "Status was not correct [1]") ∧
    (noHoldDev.SenseHumidity scripted sentinelEnv
        (start [([], none), ([0x80, 0x01, 0x00], none)])).env = sentinelEnv ∧
    busTxs ((noHoldDev.SenseHumidity scripted sentinelEnv
        (start [([], none), ([0x80, 0x01, 0x00], none)])).st.trace.drop 0)
      = [Event.tx () 0x40 [0xF5] 0, Event.tx () 0x40 [] 3] :=
  have h := SenseHumidity_rejects_status scripted noHoldDev sentinelEnv
    (start [([], none), ([0x80, 0x01, 0x00], none)]) [([0x80, 0x01, 0x00], none)] [] []
    0x80 0x01 0x00 rfl rfl (by decide)
  ⟨by decide, h.1, h.2.2.1, h.2.2.2.2⟩

/-- C4: in either mode, when the command write fails `SenseHumidity` returns
a non-nil error and its only externally visible action is that write: the
call takes the mutex, performs the write and releases the mutex, with no
delay and no read, and the world is left as the failed write left it. -/
theorem SenseHumidity_write_failure_stops {σ β ε : Type} (m : Machine σ β ε) (d : Dev β)
    (e : Env) (st : State σ β) (w1 : σ) (x : List Byte) (t : ε)
    (hw : m.Tx st.world d.d.Bus d.d.Addr [if d.opts.HoldMaster then 0xE5 else 0xF5] 0
      = (w1, x, some t)) :
    (d.SenseHumidity m e st).err ≠ none ∧
    (d.SenseHumidity m e st).st.trace = st.trace ++
      [Event.lock, Event.tx d.d.Bus d.d.Addr [if d.opts.HoldMaster then 0xE5 else 0xF5] 0,
        Event.unlock] ∧
    visible ((d.SenseHumidity m e st).st.trace.drop st.trace.length) =
      [Event.tx d.d.Bus d.d.Addr [if d.opts.HoldMaster then 0xE5 else 0xF5] 0] ∧
    (d.SenseHumidity m e st).st.world = w1 := by
  rw [run_write_failed m d e st w1 x t hw]
  refine ⟨by simp [ret], by simp [ret, State.emit], ?_, rfl⟩
  simp [ret, State.emit, visible, Event.isExternal]

/-- C4 on a write that fails with "nack", in both modes. -/
theorem SenseHumidity_write_failure_stops_witness :
    (visible ((holdDev.SenseHumidity scripted sentinelEnv
        (start [([], some "nack"), ([0x80, 0x02, 0x00], none)])).st.trace.drop 0)
      = [Event.tx () 0x40 [0xE5] 0] ∧
     (holdDev.SenseHumidity scripted sentinelEnv
        (start [([], some "nack"), ([0x80, 0x02, 0x00], none)])).st.world
      = [([0x80, 0x02, 0x00], none)]) ∧
    (visible ((noHoldDev.SenseHumidity scripted sentinelEnv
        (start [([], some "nack"), ([0x80, 0x02, 0x00], none)])).st.trace.drop 0)
      = [Event.tx () 0x40 [0xF5] 0] ∧
     (noHoldDev.SenseHumidity scripted sentinelEnv
        (start [([], some "nack"), ([0x80, 0x02, 0x00], none)])).err ≠ none) :=
  have h1 := SenseHumidity_write_failure_stops scripted holdDev sentinelEnv
    (start [([], some "nack"), ([0x80, 0x02, 0x00], none)]) [([0x80, 0x02, 0x00], none)] []
    "nack" rfl
  have h2 := SenseHumidity_write_failure_stops scripted noHoldDev sentinelEnv
    (start [([], some "nack"), ([0x80, 0x02, 0x00], none)]) [([0x80, 0x02, 0x00], none)] []
    "nack" rfl
  ⟨⟨h1.2.2.1, h1.2.2.2⟩, h2.2.2.1, h2.1⟩

/-- C5 as stated fails: the phase messages of the code start with a capital
letter.  On a write that fails with "nack" the error wraps the text
"Failed to send command", not "failed to send command", and on a read that
fails with "nack" it wraps "Failed to read response", not
"failed to read response". -/
theorem SenseHumidity_phase_message_lowercase_fails :
    ((holdDev.SenseHumidity scripted sentinelEnv (start [([], some "nack")])).err
        = some (GoError.joinError
            [GoError.errorString "Failed to send command", GoError.transport "nack"]) ∧
      (holdDev.SenseHumidity scripted sentinelEnv (start [([], some "nack")])).err
        ≠ some (GoError.joinError
            [GoError.errorString "failed to send command", GoError.transport "nack"]) ∧
      ((holdDev.SenseHumidity scripted sentinelEnv (start [([], some "nack")])).err.map
          (GoError.Error id)) ≠ some "failed to send command\nnack") ∧
    ((holdDev.SenseHumidity scripted sentinelEnv (start [([], none), ([], some "nack")])).err
        = some (GoError.joinError
            [GoError.errorString "Failed to read response", GoError.transport "nack"]) ∧
      (holdDev.SenseHumidity scripted sentinelEnv (start [([], none), ([], some "nack")])).err
        ≠ some (GoError.joinError
            [GoError.errorString "failed to read response", GoError.transport "nack"]) ∧
      ((holdDev.SenseHumidity scripted sentinelEnv
          (start [([], none), ([], some "nack")])).err.map
          (GoError.Error id)) ≠ some "failed to read response\nnack") := by
  have h1 : (holdDev.SenseHumidity scripted sentinelEnv (start [([], some "nack")])).err
      = some (GoError.joinError
          [GoError.errorString "Failed to send command", GoError.transport "nack"]) := rfl
  have h2 : (holdDev.SenseHumidity scripted sentinelEnv
      (start [([], none), ([], some "nack")])).err
      = some (GoError.joinError
          [GoError.errorString "Failed to read response", GoError.transport "nack"]) := rfl
  refine ⟨⟨h1, ?_, ?_⟩, h2, ?_, ?_⟩
  · rw [h1]; simp
  · rw [h1]; decide
  · rw [h2]; simp
  · rw [h2]; decide

/-- C5, amended: for every transport error `t`, when the command write fails
with `t` the error returned is the join of the phase message
"Failed to send command" and `t`; when the write succeeds and the read fails
with `t` it is the join of "Failed to read response" and `t`.  In both cases
`Unwrap` gives back the phase message and `t`, the text is the phase message,
a newline and the text of `t`, and an error of the write phase is never equal
to an error of the read phase. -/
theorem SenseHumidity_wraps_transport_error {σ β ε : Type} (m : Machine σ β ε) (d : Dev β)
    (e : Env) (st : State σ β) :
    (∀ (w1 : σ) (x : List Byte) (t : ε),
      m.Tx st.world d.d.Bus d.d.Addr [if d.opts.HoldMaster then 0xE5 else 0xF5] 0
        = (w1, x, some t) →
      ∃ err, (d.SenseHumidity m e st).err = some err ∧
        err = GoError.joinError [GoError.errorString "Failed to send command",
          GoError.transport t] ∧
        err.Unwrap = [GoError.errorString "Failed to send command", GoError.transport t] ∧
        GoError.transport t ∈ err.Unwrap ∧
        ∀ text : ε → String, err.Error text = "Failed to send command" ++ "\n" ++ text t) ∧
    (∀ (w1 w2 : σ) (x y : List Byte) (t : ε),
      m.Tx st.world d.d.Bus d.d.Addr [if d.opts.HoldMaster then 0xE5 else 0xF5] 0
        = (w1, x, none) →
      m.Tx (if d.opts.HoldMaster then w1 else m.Sleep w1 100000000) d.d.Bus d.d.Addr [] 3
        = (w2, y, some t) →
      ∃ err, (d.SenseHumidity m e st).err = some err ∧
        err = GoError.joinError [GoError.errorString "Failed to read response",
          GoError.transport t] ∧
        err.Unwrap = [GoError.errorString "Failed to read response", GoError.transport t] ∧
        GoError.transport t ∈ err.Unwrap ∧
        ∀ text : ε → String, err.Error text = "Failed to read response" ++ "\n" ++ text t) ∧
    (∀ t u : ε,
      GoError.joinError [GoError.errorString "Failed to send command", GoError.transport t]
        ≠ GoError.joinError [GoError.errorString "Failed to read response",
            GoError.transport u]) := by
  refine ⟨?_, ?_, ?_⟩
  · intro w1 x t hw
    rw [run_write_failed m d e st w1 x t hw]
    refine ⟨_, rfl, rfl, rfl, ?_, ?_⟩
    · simp [GoError.Unwrap]
    · intro text
      simp [GoError.Error, errorLines]
  · intro w1 w2 x y t hw hr
    rw [run_read_failed m d e st w1 w2 x y t hw hr]
    refine ⟨_, rfl, rfl, rfl, ?_, ?_⟩
    · simp [GoError.Unwrap]
    · intro text
      simp [GoError.Error, errorLines]
  · intro t u h
    simp only [GoError.joinError.injEq, List.cons.injEq, GoError.errorString.injEq] at h
    exact absurd h.1 (by decide)

/-- C5, amended, on a write that fails with "nack" in hold-master mode and a
read that fails with "timeout" in no-hold-master mode. -/
theorem SenseHumidity_wraps_transport_error_witness :
    (holdDev.SenseHumidity scripted sentinelEnv (start [([], some "nack")])).err
      = some (GoError.joinError [GoError.errorString "Failed to send command",
          GoError.transport "nack"]) ∧
    (noHoldDev.SenseHumidity scripted sentinelEnv
        (start [([], none), ([], some "timeout")])).err
      = some (GoError.joinError [GoError.errorString "Failed to read response",
          GoError.transport "timeout"]) := by
  obtain ⟨err1, h1, e1, -⟩ := (SenseHumidity_wraps_transport_error scripted holdDev sentinelEnv
    (start [([], some "nack")])).1 [] [] "nack" rfl
  obtain ⟨err2, h2, e2, -⟩ := (SenseHumidity_wraps_transport_error scripted noHoldDev
    sentinelEnv (start [([], none), ([], some "timeout")])).2.1
    [([], some "timeout")] [] [] [] "timeout" rfl rfl
  exact ⟨by rw [h1, e1], by rw [h2, e2]⟩

/-! ## The order of the externally visible actions -/

/-- C6: a driver in hold-master mode whose write and read both succeed
performs, between taking and releasing its mutex, the write of the single
byte `0xE5` with nothing read and then the read of 3 bytes with nothing
written; these two transactions are all its externally visible actions, no
delay stands between them, and the read is issued in the world the write left
behind. -/
theorem SenseHumidity_hold_sequence {σ β ε : Type} (m : Machine σ β ε) (d : Dev β) (e : Env)
    (st : State σ β) (w1 w2 : σ) (x y : List Byte)
    (hm : d.opts.HoldMaster = true)
    (hw : m.Tx st.world d.d.Bus d.d.Addr [0xE5] 0 = (w1, x, none))
    (hr : m.Tx w1 d.d.Bus d.d.Addr [] 3 = (w2, y, none)) :
    (d.SenseHumidity m e st).st.trace = st.trace ++
      [Event.lock, Event.tx d.d.Bus d.d.Addr [0xE5] 0, Event.tx d.d.Bus d.d.Addr [] 3,
        Event.unlock] ∧
    visible ((d.SenseHumidity m e st).st.trace.drop st.trace.length) =
      [Event.tx d.d.Bus d.d.Addr [0xE5] 0, Event.tx d.d.Bus d.d.Addr [] 3] ∧
    (d.SenseHumidity m e st).st.world = w2 := by
  have hw2 : m.Tx st.world d.d.Bus d.d.Addr [if d.opts.HoldMaster then 0xE5 else 0xF5] 0
      = (w1, x, none) := by rw [hm]; exact hw
  have hr2 : m.Tx (if d.opts.HoldMaster then w1 else m.Sleep w1 100000000) d.d.Bus d.d.Addr
      [] 3 = (w2, y, none) := by rw [hm]; exact hr
  rw [run_read_done m d e st w1 w2 x y hw2 hr2, decode_state]
  simp [State.emit, effectsToRead, hm, visible, Event.isExternal]

/-- C6 on a scripted run with the response `0x80, 0x02, 0x00`. -/
theorem SenseHumidity_hold_sequence_witness :
    holdDev.opts.HoldMaster = true ∧
    visible ((holdDev.SenseHumidity scripted sentinelEnv
        (start [([], none), ([0x80, 0x02, 0x00], none)])).st.trace.drop 0)
      = [Event.tx () 0x40 [0xE5] 0, Event.tx () 0x40 [] 3] :=
  ⟨rfl, (SenseHumidity_hold_sequence scripted holdDev sentinelEnv
    (start [([], none), ([0x80, 0x02, 0x00], none)]) [([0x80, 0x02, 0x00], none)] [] []
    [0x80, 0x02, 0x00] rfl rfl rfl).2.1⟩

/-- C7: a driver in no-hold-master mode whose write and read both succeed
performs, between taking and releasing its mutex, the write of the single
byte `0xF5`, then one sleep of `ReadDelay`, which is 100 milliseconds, then
the read of 3 bytes; these three are all its externally visible actions, in
this order, and the read is issued in the world as it is after the delay. -/
theorem SenseHumidity_nohold_sequence {σ β ε : Type} (m : Machine σ β ε) (d : Dev β)
    (e : Env) (st : State σ β) (w1 w2 : σ) (x y : List Byte)
    (hm : d.opts.HoldMaster = false)
    (hw : m.Tx st.world d.d.Bus d.d.Addr [0xF5] 0 = (w1, x, none))
    (hr : m.Tx (m.Sleep w1 ReadDelay) d.d.Bus d.d.Addr [] 3 = (w2, y, none)) :
    ReadDelay = 100 * 1000000 ∧
    (d.SenseHumidity m e st).st.trace = st.trace ++
      [Event.lock, Event.tx d.d.Bus d.d.Addr [0xF5] 0, Event.sleep ReadDelay,
        Event.tx d.d.Bus d.d.Addr [] 3, Event.unlock] ∧
    visible ((d.SenseHumidity m e st).st.trace.drop st.trace.length) =
      [Event.tx d.d.Bus d.d.Addr [0xF5] 0, Event.sleep ReadDelay,
        Event.tx d.d.Bus d.d.Addr [] 3] ∧
    (d.SenseHumidity m e st).st.world = w2 := by
  have hd : ReadDelay = 100000000 := rfl
  have hw2 : m.Tx st.world d.d.Bus d.d.Addr [if d.opts.HoldMaster then 0xE5 else 0xF5] 0
      = (w1, x, none) := by rw [hm]; exact hw
  have hr2 : m.Tx (if d.opts.HoldMaster then w1 else m.Sleep w1 100000000) d.d.Bus d.d.Addr
      [] 3 = (w2, y, none) := by rw [hm, ← hd]; exact hr
  rw [run_read_done m d e st w1 w2 x y hw2 hr2, decode_state]
  simp [State.emit, effectsToRead, hm, visible, Event.isExternal, hd]

/-- C7 on a scripted run with the response `0x80, 0x02, 0x00`. -/
theorem SenseHumidity_nohold_sequence_witness :
    noHoldDev.opts.HoldMaster = false ∧
    visible ((noHoldDev.SenseHumidity scripted sentinelEnv
        (start [([], none), ([0x80, 0x02, 0x00], none)])).st.trace.drop 0)
      = [Event.tx () 0x40 [0xF5] 0, Event.sleep 100000000, Event.tx () 0x40 [] 3] :=
  ⟨rfl, (SenseHumidity_nohold_sequence scripted noHoldDev sentinelEnv
    (start [([], none), ([0x80, 0x02, 0x00], none)]) [([0x80, 0x02, 0x00], none)] [] []
    [0x80, 0x02, 0x00] rfl rfl rfl).2.2.1⟩

/-! ## The stubs and the constructor -/

/-- C8: `SenseTemperature` and `SetOptions` return the error
"Not implemented", never nil, in every state; they only take and release the
mutex, so they perform no bus transaction and no other externally visible
action, and they leave the world, the output record and the driver with its
options as they were. -/
theorem stubs_not_implemented {σ β ε : Type} (d : Dev β) (e : Env) (st : State σ β) :
    ((d.SenseTemperature e st : Outcome σ β ε).err = some (GoError.errorString "Not implemented") ∧
      (d.SenseTemperature e st : Outcome σ β ε).err ≠ none ∧
      (d.SenseTemperature e st : Outcome σ β ε).st.trace
        = st.trace ++ [Event.lock, Event.unlock] ∧
      busTxs ((d.SenseTemperature e st : Outcome σ β ε).st.trace.drop st.trace.length) = [] ∧
      visible ((d.SenseTemperature e st : Outcome σ β ε).st.trace.drop st.trace.length) = [] ∧
      (d.SenseTemperature e st : Outcome σ β ε).st.world = st.world ∧
      (d.SenseTemperature e st : Outcome σ β ε).env = e ∧
      (d.SenseTemperature e st : Outcome σ β ε).dev = d) ∧
    ((d.SetOptions e st : Outcome σ β ε).err = some (GoError.errorString "Not implemented") ∧
      (d.SetOptions e st : Outcome σ β ε).err ≠ none ∧
      (d.SetOptions e st : Outcome σ β ε).st.trace = st.trace ++ [Event.lock, Event.unlock] ∧
      busTxs ((d.SetOptions e st : Outcome σ β ε).st.trace.drop st.trace.length) = [] ∧
      visible ((d.SetOptions e st : Outcome σ β ε).st.trace.drop st.trace.length) = [] ∧
      (d.SetOptions e st : Outcome σ β ε).st.world = st.world ∧
      (d.SetOptions e st : Outcome σ β ε).env = e ∧
      (d.SetOptions e st : Outcome σ β ε).dev = d) := by
  refine ⟨⟨rfl, ?_, ?_, ?_, ?_, rfl, rfl, rfl⟩, rfl, ?_, ?_, ?_, ?_, rfl, rfl, rfl⟩ <;>
    simp [Dev.SenseTemperature, Dev.SetOptions, ret, State.emit, New, busTxs, visible,
      Event.isTx, Event.isExternal]

/-- C9 as stated fails: with a nil options pointer `NewI2C` does not return;
`makeDev` dereferences the pointer. -/
theorem NewI2C_nil_opts_fails :
    (NewI2C () 0x40 none (start []) :
        Exec ((Option (Dev Unit) × Option (GoError String)) ×
          State (List (List Byte × Option String)) Unit))
      = Exec.nilDereference ∧
    ¬ ∃ r, (NewI2C () 0x40 none (start []) :
        Exec ((Option (Dev Unit) × Option (GoError String)) ×
          State (List (List Byte × Option String)) Unit))
      = Exec.returned r := by
  refine ⟨rfl, ?_⟩
  rintro ⟨r, h⟩
  cases h

/-- C9, amended: for every bus handle, every address and every options
record the pointer refers to, `NewI2C` returns a driver and a nil error; the
driver is bound to that bus and address, its options are the record given
(mode and config), and the state, world and trace, is untouched: no bus
transaction takes place. -/
theorem NewI2C_succeeds {σ β ε : Type} (b : β) (addr : Nat) (o : Opts) (st : State σ β) :
    ∃ dv : Dev β,
      (NewI2C b addr (some o) st : Exec ((Option (Dev β) × Option (GoError ε)) × State σ β))
        = Exec.returned ((some dv, none), st) ∧
      dv.d = { Bus := b, Addr := addr } ∧
      dv.opts.HoldMaster = o.HoldMaster ∧ dv.opts.Config = o.Config ∧ dv.opts = o :=
  ⟨_, rfl, rfl, rfl, rfl, rfl⟩

/-! ## The range of the stored value -/

/-- C10: for every accepted response (write and read succeed, status bits 2)
the raw value is a multiple of 4 between 0 and 65532 and the stored humidity
is the unclamped value of the conversion, between -600000 and 11899237, hence
inside the range of `int32`.  Both ends are reached, by the bytes
`0x00, 0x02` and `0xFF, 0xFE`, and both lie outside 0 to 100 percent. -/
theorem SenseHumidity_range {σ β ε : Type} (m : Machine σ β ε) (d : Dev β) (e : Env)
    (st : State σ β) (w1 w2 : σ) (x : List Byte) (b0 b1 b2 : Byte)
    (hw : m.Tx st.world d.d.Bus d.d.Addr [if d.opts.HoldMaster then 0xE5 else 0xF5] 0
      = (w1, x, none))
    (hr : m.Tx (if d.opts.HoldMaster then w1 else m.Sleep w1 100000000) d.d.Bus d.d.Addr [] 3
      = (w2, [b0, b1, b2], none))
    (hs : b1.val &&& 0b11 = 2) :
    hRaw b0 b1 % 4 = 0 ∧ hRaw b0 b1 ≤ 65532 ∧
    (d.SenseHumidity m e st).env.Humidity = humidityOfRaw (hRaw b0 b1) ∧
    -600000 ≤ (d.SenseHumidity m e st).env.Humidity ∧
    (d.SenseHumidity m e st).env.Humidity ≤ 11899237 ∧
    -(2 : Int) ^ 31 ≤ (d.SenseHumidity m e st).env.Humidity ∧
    (d.SenseHumidity m e st).env.Humidity < (2 : Int) ^ 31 ∧
    humidityOfRaw (hRaw 0x00 0x02) = -600000 ∧
    humidityOfRaw (hRaw 0xFF 0xFE) = 11899237 := by
  have hs4 : b1.val % 4 = 2 := by rw [← and_3_val]; exact hs
  have hb0 := b0.isLt
  have hb1 := b1.isLt
  have hraw := hRaw_eq b0 b1
  have hle : hRaw b0 b1 ≤ 65532 := by omega
  have hb := humidityOfRaw_bounds (hRaw b0 b1) hle
  rw [run_read_done m d e st w1 w2 x _ hw hr, decode_accepts _ _ _ _ _ _ _ hs4]
  refine ⟨by omega, hle, rfl, hb.1, hb.2, ?_, ?_, ?_, ?_⟩
  · have := hb.1; simp only [ret]; omega
  · have := hb.2; simp only [ret]; omega
  · rw [humidityOfRaw_eq]; decide
  · rw [humidityOfRaw_eq]; decide

/-- C10 at the two ends of the range: the bytes `0x00, 0x02` store -6 percent
and the bytes `0xFF, 0xFE` store 118.99237 percent. -/
theorem SenseHumidity_range_witness :
    ((0x02 : Byte).val &&& 0b11 = 2 ∧
      (holdDev.SenseHumidity scripted sentinelEnv
        (start [([], none), ([0x00, 0x02, 0x00], none)])).env.Humidity = -600000) ∧
    ((0xFE : Byte).val &&& 0b11 = 2 ∧
      (holdDev.SenseHumidity scripted sentinelEnv
        (start [([], none), ([0xFF, 0xFE, 0x00], none)])).env.Humidity = 11899237) := by
  have h1 := SenseHumidity_range scripted holdDev sentinelEnv
    (start [([], none), ([0x00, 0x02, 0x00], none)]) [([0x00, 0x02, 0x00], none)] [] []
    0x00 0x02 0x00 rfl rfl (by decide)
  have h2 := SenseHumidity_range scripted holdDev sentinelEnv
    (start [([], none), ([0xFF, 0xFE, 0x00], none)]) [([0xFF, 0xFE, 0x00], none)] [] []
    0xFF 0xFE 0x00 rfl rfl (by decide)
  exact ⟨⟨by decide, h1.2.2.1.trans h1.2.2.2.2.2.2.2.1⟩,
    by decide, h2.2.2.1.trans h2.2.2.2.2.2.2.2.2⟩

end htu21d
